import Mathlib

/-!
Shallow embedding of the ingestion/retrieval core of the
image-similarity-search repository (mmfood): the Qdrant filter builder and
vector operations (`mmfood/qdrant/operations.py`), the search pipeline
(`mmfood/services/search_service.py`, `mmfood/ui/search.py`), the single and
bulk ingest pipelines (`mmfood/ui/ingest.py`, `mmfood/ui/bulk_ingest.py`) and
the metrics timer (`mmfood/database/metrics.py`), together with theorems
checking the written specification against this embedding.
-/

namespace Mm

/-! ## Python values

Filter specifications are loosely-typed Python dictionaries.  We embed the
relevant universe of Python values as a mutual inductive family: scalars,
lists and (insertion-ordered) string-keyed dictionaries. -/

mutual

inductive Value where
| str (s : String)
| int (n : Int)
| boolean (b : Bool)
| nullV
| list (l : ValueList)
| dict (d : Dict)

inductive ValueList where
| nil
| cons (hd : Value) (tl : ValueList)

inductive Dict where
| nil
| cons (key : String) (val : Value) (tl : Dict)

end

deriving instance DecidableEq for Value, ValueList, Dict

/-- The entries of a dictionary as a list of key/value pairs, in insertion
order (Python dicts iterate in insertion order). -/
def Dict.entries : Dict → List (String × Value)
| .nil => []
| .cons k v tl => (k, v) :: tl.entries

/-! ## Qdrant filter model (`qdrant_client.models`)

`FieldCondition` mirrors the three shapes of condition built by
`build_filter_conditions`: `MatchValue`, `MatchAny`, and a `Range` that may
carry a `gte` bound, an `lte` bound, or both. -/

inductive FieldCondition where
| matchValue (key : String) (value : Value)
| matchAny (key : String) (anyVals : Value)
| rangeCond (key : String) (gte : Option Value) (lte : Option Value)
deriving DecidableEq

structure Filter where
  must : List FieldCondition
deriving DecidableEq

/-! ## `build_filter_conditions` (src/mmfood/qdrant/operations.py, lines 113-162)

The Python function iterates the entries of the input dictionary.  A `$and`
entry whose value is a list recursively collects the conditions of each
nested dictionary (`nested_result.must or []`); a dict-valued entry walks its
operator entries (`$eq`, `$in`, `$gte`, `$lte`, others silently ignored);
any other value is a direct `MatchValue` equality. -/

/-- The conditions produced for one operator dictionary of a field
(the `for op, value in condition.items()` loop).  Note that `$gte` and
`$lte` each build their own one-sided `Range` (`range_condition` is a fresh
dict per operator entry). -/
def opsConds (field : String) : Dict → List FieldCondition
| .nil => []
| .cons op v tl =>
  (if op = "$eq" then [.matchValue field v]
   else if op = "$in" then [.matchAny field v]
   else if op = "$gte" then [.rangeCond field (some v) none]
   else if op = "$lte" then [.rangeCond field none (some v)]
   else []) ++ opsConds field tl

/-- The conditions produced for one non-`$and` entry: a dict value walks its
operators, any other value is a direct `MatchValue`. -/
def entryConds (field : String) : Value → List FieldCondition
| .dict ops => opsConds field ops
| v => [.matchValue field v]

mutual

/-- The `conditions` list accumulated by `build_filter_conditions` over the
entries of `filters`, in iteration order. -/
def condsDict : Dict → List FieldCondition
| .nil => []
| .cons field v tl =>
  (if field = "$and" then andConds v else entryConds field v) ++ condsDict tl

/-- The `nested_conditions` collected for a `$and` entry: nothing unless the
value is a list. -/
def andConds : Value → List FieldCondition
| .list l => andList l
| _ => []

/-- Walk a `$and` list: each dict element contributes the `must` conditions
of its recursive build (`nested_result.must or []`), non-dicts are skipped. -/
def andList : ValueList → List FieldCondition
| .nil => []
| .cons v tl => elemConds v ++ andList tl

/-- One element of a `$and` list: dicts recurse, anything else is skipped
(`if isinstance(nested_filter, dict)`). -/
def elemConds : Value → List FieldCondition
| .dict d => condsDict d
| _ => []

end

/-- `build_filter_conditions`: `Filter(must=conditions) if conditions else None`. -/
def build_filter_conditions (filters : Dict) : Option Filter :=
  match condsDict filters with
  | [] => none
  | cs => some ⟨cs⟩

/-- The source line `nested_result.must or []` extracts exactly the
condition list of the nested build: `none` gives `[]`, and a `some` filter
always has a non-empty `must` (so Python's `or []` never rewrites it). -/
theorem build_filter_conditions_must (d : Dict) :
    (match build_filter_conditions d with
     | some f => f.must
     | none => []) = condsDict d := by
  unfold build_filter_conditions
  cases condsDict d <;> rfl

/-! ## Vector operations (src/mmfood/qdrant/operations.py)

The Qdrant client is modelled as a function supplied by the caller: an
upsert client maps the request payload (the list of points of one request)
to `Except String Unit`, where `Except.error` stands for a raised exception.
Each embedded operation additionally returns the list of store requests it
issued, so that theorems can speak about the request trace. -/

/-- A Qdrant `PointStruct`: id, vector and payload.  Vector components are
opaque to every claim, so they are embedded as integers. -/
structure PointStruct where
  id : String
  vector : List Int
  payload : Dict
deriving DecidableEq

/-- `upsert_vector` (lines 11-36): build one `PointStruct`, issue a single
upsert with a one-element list, return `True`; a raised exception is caught
and yields `False`. -/
def upsert_vector (client : List PointStruct → Except String Unit)
    (vector_id : String) (vector : List Int) (payload : Dict) : Bool :=
  match client [⟨vector_id, vector, payload⟩] with
  | .ok _ => true
  | .error _ => false

/-- The consecutive slices `points[i:i+chunk_size]` produced by
`for i in range(0, len(points), chunk_size)` (for a positive step). -/
def chunksOf {α : Type} (k : Nat) (l : List α) : List (List α) :=
  if k = 0 then []
  else if l.isEmpty then []
  else l.take k :: chunksOf k (l.drop k)
termination_by l.length
decreasing_by
  rename_i hk hl
  have : l.length ≠ 0 := by
    simpa [List.isEmpty_iff_length_eq_zero] using hl
  simp only [List.length_drop]
  omega

/-- Issue one `client.upsert` per chunk, in order, stopping at the first
raised exception (the loop body raises out of the `for`).  Returns the
control-flow outcome together with the requests actually issued. -/
def runBatches {α : Type} (client : List α → Except String Unit) :
    List (List α) → Except String Unit × List (List α)
| [] => (.ok (), [])
| b :: rest =>
  match client b with
  | .ok _ =>
    let r := runBatches client rest
    (r.1, b :: r.2)
  | .error e => (.error e, [b])

/-- `upsert_vectors_batch` (lines 39-67): empty input returns `True` with no
request; `chunk_size and chunk_size > 0` (for an integer, exactly
`chunk_size > 0`) chunks the points and issues one request per chunk;
otherwise one request carries all points.  A raised exception is caught and
yields `False`.  The second component is the sequence of issued requests. -/
def upsert_vectors_batch {α : Type} (client : List α → Except String Unit)
    (points : List α) (chunk_size : Int) : Bool × List (List α) :=
  if points.isEmpty then (true, [])
  else if chunk_size > 0 then
    match runBatches client (chunksOf chunk_size.toNat points) with
    | (.ok _, log) => (true, log)
    | (.error _, log) => (false, log)
  else
    match client points with
    | .ok _ => (true, [points])
    | .error _ => (false, [points])

/-- A point returned by `client.search`, scored. -/
structure ScoredPoint where
  id : String
  score : Int
  payload : Option Dict
deriving DecidableEq

/-- One entry of the result list of `search_vectors`:
`{"id": ..., "score": ..., "payload": point.payload or {}}`. -/
structure SearchHit where
  id : String
  score : Int
  payload : Dict
deriving DecidableEq

/-- `search_vectors` (lines 70-110): build the filter from `filters` when
present, call `client.search`, convert each returned point; any raised
exception is caught and yields the empty list.  The search client is
modelled as a function of the built filter (query vector, limit and score
threshold are fixed inside it). -/
def search_vectors (client : Option Filter → Except String (List ScoredPoint))
    (filters : Option Dict) : List SearchHit :=
  let filter_condition :=
    match filters with
    | some fs => build_filter_conditions fs
    | none => none
  match client filter_condition with
  | .ok pts => pts.map (fun p => ⟨p.id, p.score, p.payload.getD .nil⟩)
  | .error _ => []

/-! ## Chunking lemmas -/

/-- Concatenating the consecutive chunks gives back the input: every point
is covered exactly once, in the original order. -/
theorem chunksOf_flatten {α : Type} (k : Nat) (hk : 0 < k) (l : List α) :
    (chunksOf k l).flatten = l := by
  induction l using chunksOf.induct k with
  | case1 l h => omega
  | case2 l hk0 hl =>
    rw [chunksOf]
    simp_all [List.isEmpty_iff]
  | case3 l hk0 hl ih =>
    rw [chunksOf]
    simp only [if_neg hk0, if_neg hl, List.flatten_cons]
    rw [ih, List.take_append_drop]

/-- The number of chunks is `ceil (length / k)`, written with natural
division as `(length + k - 1) / k`. -/
theorem chunksOf_length {α : Type} (k : Nat) (hk : 0 < k) (l : List α) :
    (chunksOf k l).length = (l.length + k - 1) / k := by
  induction l using chunksOf.induct k with
  | case1 l h => omega
  | case2 l hk0 hl =>
    rw [chunksOf]
    have h0 : l.length = 0 := by
      simpa [List.isEmpty_iff_length_eq_zero] using hl
    simp only [if_neg hk0, if_pos hl, List.length_nil, h0]
    have h1 : (0 + k - 1) / k = 0 := Nat.div_eq_of_lt (by omega)
    omega
  | case3 l hk0 hl ih =>
    rw [chunksOf]
    have hn : 1 ≤ l.length := by
      have h2 := List.isEmpty_iff_length_eq_zero (l := l)
      by_contra hc
      exact hl (h2.mpr (by omega))
    simp only [if_neg hk0, if_neg hl, List.length_cons, List.length_drop] at *
    rw [ih]
    have hrhs : (l.length + k - 1) / k = (l.length - 1) / k + 1 := by
      have h3 : l.length + k - 1 = (l.length - 1) + k := by omega
      rw [h3, Nat.add_div_right _ hk]
    rw [hrhs]
    by_cases hnk : l.length ≤ k
    · have e1 : (l.length - k + k - 1) / k = 0 := Nat.div_eq_of_lt (by omega)
      have e2 : (l.length - 1) / k = 0 := Nat.div_eq_of_lt (by omega)
      omega
    · have h4 : l.length - k + k - 1 = l.length - 1 := by omega
      rw [h4]

/-- Every chunk holds at most `k` points. -/
theorem chunksOf_sizes {α : Type} (k : Nat) (l : List α) :
    ∀ b ∈ chunksOf k l, b.length ≤ k := by
  induction l using chunksOf.induct k with
  | case1 l h => rw [chunksOf]; simp [h]
  | case2 l hk0 hl => rw [chunksOf]; simp [if_neg hk0, if_pos hl]
  | case3 l hk0 hl ih =>
    rw [chunksOf]
    simp only [if_neg hk0, if_neg hl, List.mem_cons]
    rintro b (rfl | hb)
    · simp
    · exact ih b hb

/-- With a store that accepts every request, the chunk loop issues exactly
the given batches and completes normally. -/
theorem runBatches_ok {α : Type} (client : List α → Except String Unit)
    (hok : ∀ b, client b = .ok ()) (bs : List (List α)) :
    runBatches client bs = (.ok (), bs) := by
  induction bs with
  | nil => rfl
  | cons b rest ih => simp [runBatches, hok b, ih]

/-- The request trace of `upsert_vectors_batch` against an accepting
store, by chunk-size case. -/
theorem upsert_batch_request_trace {α : Type}
    (client : List α → Except String Unit) (points : List α) (chunk_size : Int)
    (hok : ∀ b, client b = Except.ok ()) :
    (points = [] → upsert_vectors_batch client points chunk_size = (true, []))
    ∧ (chunk_size ≤ 0 → points ≠ [] →
        upsert_vectors_batch client points chunk_size = (true, [points]))
    ∧ (0 < chunk_size →
        upsert_vectors_batch client points chunk_size
          = (true, chunksOf chunk_size.toNat points)
        ∧ (chunksOf chunk_size.toNat points).length
            = (points.length + chunk_size.toNat - 1) / chunk_size.toNat
        ∧ (∀ b ∈ chunksOf chunk_size.toNat points, b.length ≤ chunk_size.toNat)
        ∧ (chunksOf chunk_size.toNat points).flatten = points) := by
  refine ⟨?_, ?_, ?_⟩
  · rintro rfl
    rfl
  · intro hcs hne
    unfold upsert_vectors_batch
    rw [if_neg (by simpa [List.isEmpty_iff] using hne), if_neg (by omega)]
    rw [hok points]
  · intro hcs
    have hk : 0 < chunk_size.toNat := by omega
    refine ⟨?_, chunksOf_length _ hk _, chunksOf_sizes _ _, chunksOf_flatten _ hk _⟩
    unfold upsert_vectors_batch
    by_cases hp : points.isEmpty
    · rw [if_pos hp]
      have he : points = [] := List.isEmpty_iff.mp hp
      subst he
      rw [chunksOf]
      simp
    · rw [if_neg hp, if_pos (by omega : chunk_size > 0)]
      rw [runBatches_ok client hok]

/-- C1: `upsert_vectors_batch` issues exactly this request sequence: no
request (and success) for an empty points list; one request with all points
when `chunkSize ≤ 0`; and for `chunkSize = k > 0`, `ceil (N / k)` requests
whose payloads are the consecutive chunks of the input, each of size at
most `k`, together covering every point exactly once in input order. -/
theorem C1_batch_upsert_request_sequence {α : Type}
    (client : List α → Except String Unit) (points : List α) (chunk_size : Int)
    (hok : ∀ b, client b = Except.ok ()) :
    (points = [] → upsert_vectors_batch client points chunk_size = (true, []))
    ∧ (chunk_size ≤ 0 → points ≠ [] →
        upsert_vectors_batch client points chunk_size = (true, [points]))
    ∧ (0 < chunk_size →
        upsert_vectors_batch client points chunk_size
          = (true, chunksOf chunk_size.toNat points)
        ∧ (chunksOf chunk_size.toNat points).length
            = (points.length + chunk_size.toNat - 1) / chunk_size.toNat
        ∧ (∀ b ∈ chunksOf chunk_size.toNat points, b.length ≤ chunk_size.toNat)
        ∧ (chunksOf chunk_size.toNat points).flatten = points) :=
  upsert_batch_request_trace client points chunk_size hok

/-- Witness for C1: a concrete run over three points with chunk size 2
(two requests), the empty list (no request), and chunk size 0 (one request
with all points). -/
theorem C1_batch_upsert_request_sequence_witness :
    upsert_vectors_batch (fun _ : List Nat => (Except.ok () : Except String Unit)) [1, 2, 3] 2
      = (true, [[1, 2], [3]])
    ∧ upsert_vectors_batch (fun _ : List Nat => (Except.ok () : Except String Unit)) ([] : List Nat) 2
      = (true, [])
    ∧ upsert_vectors_batch (fun _ : List Nat => (Except.ok () : Except String Unit)) [1, 2, 3] 0
      = (true, [[1, 2, 3]]) := by
  have h := C1_batch_upsert_request_sequence
    (fun _ : List Nat => (Except.ok () : Except String Unit)) [1, 2, 3] 2 (fun _ => rfl)
  have h0 := C1_batch_upsert_request_sequence
    (fun _ : List Nat => (Except.ok () : Except String Unit)) ([] : List Nat) 2 (fun _ => rfl)
  have hz := C1_batch_upsert_request_sequence
    (fun _ : List Nat => (Except.ok () : Except String Unit)) [1, 2, 3] 0 (fun _ => rfl)
  refine ⟨?_, h0.1 rfl, hz.2.1 (by norm_num) (by simp)⟩
  have h2 := (h.2.2 (by norm_num)).1
  rw [h2]
  norm_num
  simp [chunksOf]

/-- C8: Vector Operations degrade rather than throw.  With a store whose
call raises, `search_vectors` returns the empty result list (not an error)
and `upsert_vector` returns `false`; both embeddings are total functions,
so no exception reaches the caller.  (The `print` logging of the root cause
is I/O and outside the embedding.) -/
theorem C8_vector_ops_degrade (e : String)
    (clientU : List PointStruct → Except String Unit)
    (clientS : Option Filter → Except String (List ScoredPoint))
    (vector_id : String) (vector : List Int) (payload : Dict)
    (filters : Option Dict)
    (hU : ∀ ps, clientU ps = Except.error e)
    (hS : ∀ f, clientS f = Except.error e) :
    upsert_vector clientU vector_id vector payload = false
    ∧ search_vectors clientS filters = [] := by
  constructor
  · unfold upsert_vector
    rw [hU]
  · simp only [search_vectors, hS]

/-- Witness for C8: a store that always raises "down". -/
theorem C8_vector_ops_degrade_witness :
    upsert_vector (fun _ => (Except.error "down" : Except String Unit)) "p1" [1] .nil = false
    ∧ search_vectors (fun _ => (Except.error "down" : Except String (List ScoredPoint)))
        (some .nil) = [] :=
  C8_vector_ops_degrade "down" (fun _ => Except.error "down") (fun _ => Except.error "down")
    "p1" [1] .nil (some .nil) (fun _ => rfl) (fun _ => rfl)

/-! ## Filter-builder counting and shape lemmas (C3, C4)

`goodDict` is the class of inputs named by C4: every non-`$and` entry is a
literal or an operator dictionary whose keys all lie in
`$eq`/`$in`/`$gte`/`$lte`, and every `$and` entry is a list of such
dictionaries (recursively).  `leafDict` counts the leaf operators of such
an input. -/

/-- All operator keys of one operator dictionary are recognized. -/
def goodOps : Dict → Bool
| .nil => true
| .cons op _ tl =>
  (op == "$eq" || op == "$in" || op == "$gte" || op == "$lte") && goodOps tl

/-- A non-`$and` entry value is a literal or a recognized operator dict. -/
def goodEntry : Value → Bool
| .dict ops => goodOps ops
| .list _ => false
| _ => true

mutual

def goodDict : Dict → Bool
| .nil => true
| .cons f v tl => (if f = "$and" then goodAnd v else goodEntry v) && goodDict tl

def goodAnd : Value → Bool
| .list l => goodList l
| _ => false

def goodList : ValueList → Bool
| .nil => true
| .cons v tl => goodElem v && goodList tl

/-- A `$and` list element must itself be a good dictionary. -/
def goodElem : Value → Bool
| .dict d => goodDict d
| _ => false

end

/-- Number of operator entries of one operator dictionary. -/
def opsLeafCount : Dict → Nat
| .nil => 0
| .cons _ _ tl => 1 + opsLeafCount tl

/-- Leaf operators contributed by one non-`$and` entry: each operator of an
operator dict is one leaf, a literal value is one (implicit equality) leaf. -/
def entryLeaves : Value → Nat
| .dict ops => opsLeafCount ops
| _ => 1

mutual

def leafDict : Dict → Nat
| .nil => 0
| .cons f v tl => (if f = "$and" then leafAnd v else entryLeaves v) + leafDict tl

def leafAnd : Value → Nat
| .list l => leafList l
| _ => 0

def leafList : ValueList → Nat
| .nil => 0
| .cons v tl => leafElem v + leafList tl

/-- Leaves of one `$and` list element. -/
def leafElem : Value → Nat
| .dict d => leafDict d
| _ => 0

end

/-- Each recognized operator entry yields exactly one condition. -/
theorem opsConds_length (field : String) : ∀ d : Dict, goodOps d = true →
    (opsConds field d).length = opsLeafCount d
| .nil, _ => rfl
| .cons op v tl, h => by
  have h' : (((op = "$eq" ∨ op = "$in") ∨ op = "$gte") ∨ op = "$lte")
      ∧ goodOps tl = true := by
    simpa [goodOps, Bool.and_eq_true, Bool.or_eq_true, beq_iff_eq] using h
  have ihl := opsConds_length field tl h'.2
  rcases h'.1 with ((hop | hop) | hop) | hop <;>
    subst hop <;> simp [opsConds, opsLeafCount, ihl, Nat.add_comm]

mutual

theorem condsDict_length : ∀ d : Dict, goodDict d = true →
    (condsDict d).length = leafDict d
| .nil, _ => rfl
| .cons f v tl, h => by
  have h' : (if f = "$and" then goodAnd v else goodEntry v) = true
      ∧ goodDict tl = true := by
    simpa [goodDict, Bool.and_eq_true] using h
  have ihtl := condsDict_length tl h'.2
  by_cases hf : f = "$and"
  · have hv := andConds_length v (by simpa [if_pos hf] using h'.1)
    simp [condsDict, leafDict, if_pos hf, hv, ihtl]
  · have hv : goodEntry v = true := by simpa [if_neg hf] using h'.1
    have he : (entryConds f v).length = entryLeaves v := by
      cases v with
      | dict ops => exact opsConds_length f ops (by simpa [goodEntry] using hv)
      | list l => simp [goodEntry] at hv
      | str s => rfl
      | int n => rfl
      | boolean b => rfl
      | nullV => rfl
    simp [condsDict, leafDict, if_neg hf, he, ihtl]

theorem andConds_length : ∀ v : Value, goodAnd v = true →
    (andConds v).length = leafAnd v
| .list l, h => andList_length l (by simpa [goodAnd] using h)
| .str _, h => by simp [goodAnd] at h
| .int _, h => by simp [goodAnd] at h
| .boolean _, h => by simp [goodAnd] at h
| .nullV, h => by simp [goodAnd] at h
| .dict _, h => by simp [goodAnd] at h

theorem andList_length : ∀ l : ValueList, goodList l = true →
    (andList l).length = leafList l
| .nil, _ => rfl
| .cons v tl, h => by
  have h' : goodElem v = true ∧ goodList tl = true := by
    simpa [goodList, Bool.and_eq_true] using h
  have ihtl := andList_length tl h'.2
  have hv := elemConds_length v h'.1
  simp [andList, leafList, hv, ihtl]

theorem elemConds_length : ∀ v : Value, goodElem v = true →
    (elemConds v).length = leafElem v
| .dict d, h => condsDict_length d (by simpa [goodElem] using h)
| .str _, h => by simp [goodElem] at h
| .int _, h => by simp [goodElem] at h
| .boolean _, h => by simp [goodElem] at h
| .nullV, h => by simp [goodElem] at h
| .list _, h => by simp [goodElem] at h

end

/-- C4: on inputs using only literal values and `$eq`/`$in`/`$gte`/`$lte`/
`$and` keys, the builder output is one flat conjunction (the single `must`
list — the model has no OR connective) whose length equals the number of
leaf operators of the possibly nested input; and an input with no
recognized conditions yields no filter rather than an error. -/
theorem C4_conjunction_counts_leaf_operators (d : Dict) (h : goodDict d = true) :
    (condsDict d).length = leafDict d
    ∧ (leafDict d = 0 → build_filter_conditions d = none)
    ∧ (0 < leafDict d → build_filter_conditions d = some ⟨condsDict d⟩) := by
  have hl := condsDict_length d h
  refine ⟨hl, ?_, ?_⟩
  · intro h0
    unfold build_filter_conditions
    have he : condsDict d = [] := List.length_eq_zero.mp (by omega)
    rw [he]
  · intro h0
    unfold build_filter_conditions
    cases hc : condsDict d with
    | nil =>
      rw [hc] at hl
      simp at hl
      omega
    | cons a tl => simp

/-- Witness for C4: a mapping with two operators on one field, a nested
`$and` list carrying two more leaves, and separately an empty mapping. -/
theorem C4_conjunction_counts_leaf_operators_witness :
    goodDict (Dict.cons "a"
      (.dict (Dict.cons "$eq" (.str "x") (Dict.cons "$in"
        (.list (.cons (.str "x") (.cons (.str "y") .nil))) .nil)))
      (Dict.cons "$and"
        (.list (.cons (.dict (Dict.cons "b" (.dict (Dict.cons "$gte" (.int 1) .nil)) .nil))
          (.cons (.dict (Dict.cons "c" (.str "z") .nil)) .nil)))
        .nil)) = true
    ∧ (condsDict (Dict.cons "a"
      (.dict (Dict.cons "$eq" (.str "x") (Dict.cons "$in"
        (.list (.cons (.str "x") (.cons (.str "y") .nil))) .nil)))
      (Dict.cons "$and"
        (.list (.cons (.dict (Dict.cons "b" (.dict (Dict.cons "$gte" (.int 1) .nil)) .nil))
          (.cons (.dict (Dict.cons "c" (.str "z") .nil)) .nil)))
        .nil))).length = 4
    ∧ build_filter_conditions Dict.nil = none := by
  have h := C4_conjunction_counts_leaf_operators (Dict.cons "a"
      (.dict (Dict.cons "$eq" (.str "x") (Dict.cons "$in"
        (.list (.cons (.str "x") (.cons (.str "y") .nil))) .nil)))
      (Dict.cons "$and"
        (.list (.cons (.dict (Dict.cons "b" (.dict (Dict.cons "$gte" (.int 1) .nil)) .nil))
          (.cons (.dict (Dict.cons "c" (.str "z") .nil)) .nil)))
        .nil)) (by decide)
  have h0 := C4_conjunction_counts_leaf_operators Dict.nil (by decide)
  exact ⟨by decide, by rw [h.1]; decide, h0.2.1 (by decide)⟩

/-! ### Range conditions are always one-sided (C3) -/

/-- Whether a condition is a two-sided range (both bounds in one condition). -/
def isCombinedRange : FieldCondition → Bool
| .rangeCond _ (some _) (some _) => true
| _ => false

/-- The operator loop never emits a two-sided range: `range_condition` is
rebuilt per operator entry with a single key. -/
theorem opsConds_one_sided (field : String) : ∀ d : Dict,
    ∀ c ∈ opsConds field d, isCombinedRange c = false
| .nil => by simp [opsConds]
| .cons op v tl => by
  intro c hc
  simp only [opsConds, List.mem_append] at hc
  rcases hc with hc | hc
  · by_cases h1 : op = "$eq"
    · rw [if_pos h1] at hc
      simp at hc
      subst hc
      rfl
    · rw [if_neg h1] at hc
      by_cases h2 : op = "$in"
      · rw [if_pos h2] at hc
        simp at hc
        subst hc
        rfl
      · rw [if_neg h2] at hc
        by_cases h3 : op = "$gte"
        · rw [if_pos h3] at hc
          simp at hc
          subst hc
          rfl
        · rw [if_neg h3] at hc
          by_cases h4 : op = "$lte"
          · rw [if_pos h4] at hc
            simp at hc
            subst hc
            rfl
          · rw [if_neg h4] at hc
            simp at hc
  · exact opsConds_one_sided field tl c hc

/-- Direct entries never produce a two-sided range either. -/
theorem entryConds_one_sided (field : String) : ∀ v : Value,
    ∀ c ∈ entryConds field v, isCombinedRange c = false
| .dict ops => opsConds_one_sided field ops
| .str _ => by simp [entryConds, isCombinedRange]
| .int _ => by simp [entryConds, isCombinedRange]
| .boolean _ => by simp [entryConds, isCombinedRange]
| .nullV => by simp [entryConds, isCombinedRange]
| .list _ => by simp [entryConds, isCombinedRange]

mutual

theorem condsDict_one_sided : ∀ d : Dict,
    ∀ c ∈ condsDict d, isCombinedRange c = false
| .nil => by simp [condsDict]
| .cons f v tl => by
  intro c hc
  simp only [condsDict, List.mem_append] at hc
  rcases hc with hc | hc
  · by_cases hf : f = "$and"
    · rw [if_pos hf] at hc
      exact andConds_one_sided v c hc
    · rw [if_neg hf] at hc
      exact entryConds_one_sided f v c hc
  · exact condsDict_one_sided tl c hc

theorem andConds_one_sided : ∀ v : Value,
    ∀ c ∈ andConds v, isCombinedRange c = false
| .list l => andList_one_sided l
| .str _ => by simp [andConds]
| .int _ => by simp [andConds]
| .boolean _ => by simp [andConds]
| .nullV => by simp [andConds]
| .dict _ => by simp [andConds]

theorem andList_one_sided : ∀ l : ValueList,
    ∀ c ∈ andList l, isCombinedRange c = false
| .nil => by simp [andList]
| .cons v tl => by
  intro c hc
  simp only [andList, List.mem_append] at hc
  rcases hc with hc | hc
  · exact elemConds_one_sided v c hc
  · exact andList_one_sided tl c hc

theorem elemConds_one_sided : ∀ v : Value,
    ∀ c ∈ elemConds v, isCombinedRange c = false
| .dict d => condsDict_one_sided d
| .str _ => by simp [elemConds]
| .int _ => by simp [elemConds]
| .boolean _ => by simp [elemConds]
| .nullV => by simp [elemConds]
| .list _ => by simp [elemConds]

end

/-- A `$gte` entry of a field's operator dictionary puts the one-sided
lower-bound range into the produced conditions. -/
theorem opsConds_gte_mem (field : String) (a : Value) : ∀ d : Dict,
    ("$gte", a) ∈ d.entries →
    FieldCondition.rangeCond field (some a) none ∈ opsConds field d
| .nil => by simp [Dict.entries]
| .cons op v tl => by
  intro h
  simp only [Dict.entries, List.mem_cons] at h
  simp only [opsConds, List.mem_append]
  rcases h with h | h
  · obtain ⟨h1, h2⟩ := Prod.mk.injEq .. ▸ h
    subst h1
    subst h2
    simp
  · exact Or.inr (opsConds_gte_mem field a tl h)

/-- A `$lte` entry of a field's operator dictionary puts the one-sided
upper-bound range into the produced conditions. -/
theorem opsConds_lte_mem (field : String) (b : Value) : ∀ d : Dict,
    ("$lte", b) ∈ d.entries →
    FieldCondition.rangeCond field none (some b) ∈ opsConds field d
| .nil => by simp [Dict.entries]
| .cons op v tl => by
  intro h
  simp only [Dict.entries, List.mem_cons] at h
  simp only [opsConds, List.mem_append]
  rcases h with h | h
  · obtain ⟨h1, h2⟩ := Prod.mk.injEq .. ▸ h
    subst h1
    subst h2
    simp
  · exact Or.inr (opsConds_lte_mem field b tl h)

/-- Conditions of a non-`$and` dict-valued entry survive into the overall
condition list. -/
theorem condsDict_entry_subset (field : String) (ops : Dict)
    (hf : field ≠ "$and") : ∀ d : Dict, (field, Value.dict ops) ∈ d.entries →
    ∀ c ∈ opsConds field ops, c ∈ condsDict d
| .nil => by simp [Dict.entries]
| .cons f v tl => by
  intro h c hc
  simp only [Dict.entries, List.mem_cons] at h
  simp only [condsDict, List.mem_append]
  rcases h with h | h
  · obtain ⟨h1, h2⟩ := Prod.mk.injEq .. ▸ h
    subst h1
    subst h2
    rw [if_neg hf]
    exact Or.inl hc
  · exact Or.inr (condsDict_entry_subset field ops hf tl h c hc)

/-- C3 counterexample: on `{"ts": {"$gte": 100, "$lte": 200}}` the builder
emits two conditions, not one condition combining both bounds. -/
theorem C3_counterexample_two_conditions :
    build_filter_conditions
        (Dict.cons "ts" (.dict (Dict.cons "$gte" (.int 100)
          (Dict.cons "$lte" (.int 200) .nil))) .nil)
      = some ⟨[.rangeCond "ts" (some (.int 100)) none,
               .rangeCond "ts" none (some (.int 200))]⟩
    ∧ Option.map (fun f => f.must.length)
        (build_filter_conditions
          (Dict.cons "ts" (.dict (Dict.cons "$gte" (.int 100)
            (Dict.cons "$lte" (.int 200) .nil))) .nil)) ≠ some 1 := by
  constructor
  · decide
  · decide

/-- C3 amended: when a field's operator object holds both a `$gte` and a
`$lte` entry, the builder emits two separate one-sided range conditions for
that field — one per bound — and the output never contains a single
condition combining both bounds. -/
theorem C3_gte_lte_become_two_one_sided_ranges (d : Dict) (field : String)
    (ops : Dict) (a b : Value)
    (hf : field ≠ "$and")
    (hmem : (field, Value.dict ops) ∈ d.entries)
    (hg : ("$gte", a) ∈ ops.entries) (hl : ("$lte", b) ∈ ops.entries) :
    FieldCondition.rangeCond field (some a) none ∈ condsDict d
    ∧ FieldCondition.rangeCond field none (some b) ∈ condsDict d
    ∧ ∀ c ∈ condsDict d, isCombinedRange c = false := by
  refine ⟨?_, ?_, condsDict_one_sided d⟩
  · exact condsDict_entry_subset field ops hf d hmem _ (opsConds_gte_mem field a ops hg)
  · exact condsDict_entry_subset field ops hf d hmem _ (opsConds_lte_mem field b ops hl)

/-- Witness for the amended C3 at the counterexample input. -/
theorem C3_gte_lte_become_two_one_sided_ranges_witness :
    FieldCondition.rangeCond "ts" (some (.int 100)) none
      ∈ condsDict (Dict.cons "ts" (.dict (Dict.cons "$gte" (.int 100)
          (Dict.cons "$lte" (.int 200) .nil))) .nil)
    ∧ FieldCondition.rangeCond "ts" none (some (.int 200))
      ∈ condsDict (Dict.cons "ts" (.dict (Dict.cons "$gte" (.int 100)
          (Dict.cons "$lte" (.int 200) .nil))) .nil)
    ∧ ∀ c ∈ condsDict (Dict.cons "ts" (.dict (Dict.cons "$gte" (.int 100)
          (Dict.cons "$lte" (.int 200) .nil))) .nil), isCombinedRange c = false :=
  C3_gte_lte_become_two_one_sided_ranges
    (Dict.cons "ts" (.dict (Dict.cons "$gte" (.int 100)
      (Dict.cons "$lte" (.int 200) .nil))) .nil)
    "ts" (Dict.cons "$gte" (.int 100) (Dict.cons "$lte" (.int 200) .nil))
    (.int 100) (.int 200)
    (by decide) (by decide) (by decide) (by decide)

/-! ## Dates and timestamps (search pipeline, C5) -/

structure Date where
  year : Int
  month : Nat
  day : Nat
deriving DecidableEq

structure TimeOfDay where
  hour : Nat
  minute : Nat
  second : Nat
deriving DecidableEq

/-- `datetime.combine(date, time)`. -/
structure DateTime where
  date : Date
  time : TimeOfDay
deriving DecidableEq

/-- Days since the Unix epoch of a civil date (the standard civil-calendar
conversion). -/
def days_from_civil (y : Int) (m d : Int) : Int :=
  let y2 := if m ≤ 2 then y - 1 else y
  let era := (if 0 ≤ y2 then y2 else y2 - 399) / 400
  let yoe := y2 - era * 400
  let mp := (m + 9) % 12
  let doy := (153 * mp + 2) / 5 + d - 1
  let doe := yoe * 365 + yoe / 4 - yoe / 100 + doy
  era * 146097 + doe - 719468

/-- Modelled from the spec: `to_unix_ts` lives in `mmfood/utils/time.py`,
which is not among the sources; the spec calls its output "the store's
native timestamp representation".  It is modelled as seconds since the Unix
epoch of the given naive datetime. -/
def to_unix_ts (dt : DateTime) : Int :=
  days_from_civil dt.date.year dt.date.month dt.date.day * 86400
    + dt.time.hour * 3600 + dt.time.minute * 60 + dt.time.second

/-- A Python list of strings as a `Value` list. -/
def listValueOfStrings : List String → ValueList
| [] => .nil
| s :: tl => .cons (.str s) (listValueOfStrings tl)

/-- The `ts` operator object built for a date range: `$gte` at 00:00:00 of
the start day, `$lte` at 23:59:59 of the end day. -/
def tsRangeDict (s e : Date) : Dict :=
  Dict.cons "$gte" (.int (to_unix_ts ⟨s, ⟨0, 0, 0⟩⟩))
    (Dict.cons "$lte" (.int (to_unix_ts ⟨e, ⟨23, 59, 59⟩⟩)) .nil)

/-- The trailing `meal_type` entry: present only when the list is
non-empty (`if meal_types:`). -/
def mealTypeTail : List String → Dict
| [] => .nil
| mt => Dict.cons "meal_type"
    (.dict (Dict.cons "$in" (.list (listValueOfStrings mt)) .nil)) .nil

/-- `SearchService._build_filters` (src/mmfood/services/search_service.py,
lines 172-195): `{"user_id": {"$eq": user_id}}`, then for a well-formed
date range a `ts` entry with both day-boundary bounds, then for non-empty
meal types a `meal_type` `$in` entry, in insertion order. -/
def _build_filters (user_id : String) (date_range : Option (Date × Date))
    (meal_types : List String) : Dict :=
  Dict.cons "user_id" (.dict (Dict.cons "$eq" (.str user_id) .nil))
    (match date_range with
     | some (s, e) => Dict.cons "ts" (.dict (tsRangeDict s e)) (mealTypeTail meal_types)
     | none => mealTypeTail meal_types)

/-- C5: the filter mapping built for a search carries exactly: `user_id`
equality with the given owner; when a date range is supplied, a `ts` range
from 00:00:00 of the start day to 23:59:59 of the end day in store-native
timestamps; when meal types are supplied, a `meal_type` `$in` over them;
and nothing else.  The second conjunct runs the mapping through the filter
builder: the compiled conjunction is exactly the matching equality, the two
one-sided day-boundary bounds, and the `$in` condition. -/
theorem C5_search_filter_contents (u : String) (dr : Option (Date × Date))
    (mt : List String) :
    (_build_filters u dr mt).entries
      = ("user_id", Value.dict (Dict.cons "$eq" (.str u) .nil))
        :: ((match dr with
             | some (s, e) => [("ts", Value.dict (tsRangeDict s e))]
             | none => [])
          ++ (match mt with
              | [] => []
              | _ => [("meal_type", Value.dict (Dict.cons "$in"
                        (.list (listValueOfStrings mt)) .nil))]))
    ∧ condsDict (_build_filters u dr mt)
      = FieldCondition.matchValue "user_id" (.str u)
        :: ((match dr with
             | some (s, e) =>
               [FieldCondition.rangeCond "ts" (some (.int (to_unix_ts ⟨s, ⟨0, 0, 0⟩⟩))) none,
                FieldCondition.rangeCond "ts" none (some (.int (to_unix_ts ⟨e, ⟨23, 59, 59⟩⟩)))]
             | none => [])
          ++ (match mt with
              | [] => []
              | _ => [FieldCondition.matchAny "meal_type"
                        (.list (listValueOfStrings mt))])) := by
  cases dr with
  | some p =>
    obtain ⟨s, e⟩ := p
    cases mt with
    | nil =>
      refine ⟨rfl, ?_⟩
      simp [_build_filters, condsDict, entryConds, opsConds, andConds,
        mealTypeTail, tsRangeDict]
    | cons m ms =>
      refine ⟨rfl, ?_⟩
      simp [_build_filters, condsDict, entryConds, opsConds, andConds,
        mealTypeTail, tsRangeDict]
  | none =>
    cases mt with
    | nil =>
      refine ⟨rfl, ?_⟩
      simp [_build_filters, condsDict, entryConds, opsConds, andConds,
        mealTypeTail, tsRangeDict]
    | cons m ms =>
      refine ⟨rfl, ?_⟩
      simp [_build_filters, condsDict, entryConds, opsConds, andConds,
        mealTypeTail, tsRangeDict]

/-! ## MetricsTimer (src/mmfood/database/metrics.py, lines 976-991; C10)

Time is modelled as an integer clock threaded through every timed body: a
body receives the clock at entry and returns its outcome together with the
clock at exit.  `Except.error` stands for an exception raised inside the
`with` block. -/

structure MetricsTimer where
  start_time : Option Int
  end_time : Option Int
  duration_ms : Option Int
deriving DecidableEq

/-- `MetricsTimer.__init__`: all fields `None`. -/
def MetricsTimer.new : MetricsTimer := ⟨none, none, none⟩

/-- `with timer: body` — `__enter__` records the start clock; the body runs
(and may raise); `__exit__` always runs, records the end clock and sets
`duration_ms = (end - start) * 1000`, and returns `None`, so any exception
is re-raised unchanged.  Returns the body outcome, the finished timer, and
the clock after the block. -/
def withTimer {ε α : Type} (t : MetricsTimer) (clock : Int)
    (body : Int → Except ε α × Int) : Except ε α × MetricsTimer × Int :=
  let t1 : MetricsTimer := { t with start_time := some clock }
  let r := body clock
  (r.1,
   { t1 with end_time := some r.2, duration_ms := some ((r.2 - clock) * 1000) },
   r.2)

/-- C10: after the `with` block exits — normally or by exception — the
timer's `duration_ms` is a set (non-`None`) value equal to end minus start
in milliseconds, non-negative whenever the clock did not go backwards
during the block; and the body's outcome (including a raised exception) is
returned unchanged — the timer never suppresses it. -/
theorem C10_metrics_timer_always_finalizes {ε α : Type} (t : MetricsTimer)
    (clock : Int) (body : Int → Except ε α × Int)
    (hmono : clock ≤ (body clock).2) :
    (withTimer t clock body).1 = (body clock).1
    ∧ (withTimer t clock body).2.1.duration_ms
        = some (((body clock).2 - clock) * 1000)
    ∧ ((withTimer t clock body).2.1.duration_ms).isSome = true
    ∧ (0 : Int) ≤ ((withTimer t clock body).2.1.duration_ms).getD 0 := by
  refine ⟨rfl, rfl, rfl, ?_⟩
  show (0 : Int) ≤ ((body clock).2 - clock) * 1000
  have h : (0 : Int) ≤ (body clock).2 - clock := by omega
  positivity

/-- Witness for C10: a body that raises after the clock advances by 5. -/
theorem C10_metrics_timer_always_finalizes_witness :
    (withTimer MetricsTimer.new 0
        (fun c => ((Except.error "boom" : Except String Unit), c + 5))).1
      = Except.error "boom"
    ∧ (withTimer MetricsTimer.new 0
        (fun c => ((Except.error "boom" : Except String Unit), c + 5))).2.1.duration_ms
      = some 5000 := by
  have h := C10_metrics_timer_always_finalizes MetricsTimer.new 0
    (fun c => ((Except.error "boom" : Except String Unit), c + 5)) (by norm_num)
  exact ⟨h.1, by rw [h.2.1]; norm_num⟩

/-! ## Search pipeline (src/mmfood/services/search_service.py; C7)

`execute_search` is embedded over an environment of external stages, each a
clock-threaded fallible call:
* `init` — client construction, `validate_collection_config` and
  `ensure_payload_indexes` (everything before the embedding timer);
* `embed` — `generate_mm_embedding` plus `log_embedding_operation`;
* `searchCall` — `search_vectors` plus `log_vector_operation` and the
  result logging.
The filter build between them is the pure `_build_filters` and cannot
raise in this embedding. -/

structure SearchEnv where
  init : Int → Except String Unit × Int
  embed : Int → Except String (List Int) × Int
  searchCall : Int → Except String (List SearchHit) × Int

/-- The completion row written by `log_request_completion`. -/
structure CompletionRecord where
  total_duration_ms : Int
  embedding_duration_ms : Int
  search_duration_ms : Int
  results_count : Nat
  success : Bool
  error_message : Option String
deriving DecidableEq

/-- The structured dictionary returned to the caller. -/
structure SearchReturn where
  success : Bool
  results : List SearchHit
  error : Option String
deriving DecidableEq

/-- `SearchService.execute_search` (lines 23-170): run the stages inside
`total_timer`; on any exception, the `except` branch still logs a completion
record with `success=False` and duration fields defaulting to `0` for
timers that never ran (`x if x else 0`), and returns a structured failure
dictionary instead of re-raising.  Timer values are produced by the
`withTimer` semantics; a timer whose block was never entered contributes
`0`. -/
def execute_search (env : SearchEnv) (c0 : Int) : CompletionRecord × SearchReturn :=
  match env.init c0 with
  | (.error e, c1) =>
    (⟨(c1 - c0) * 1000, 0, 0, 0, false, some e⟩, ⟨false, [], some e⟩)
  | (.ok _, c1) =>
    match withTimer MetricsTimer.new c1 env.embed with
    | (.error e, et, c2) =>
      (⟨(c2 - c0) * 1000, et.duration_ms.getD 0, 0, 0, false, some e⟩,
       ⟨false, [], some e⟩)
    | (.ok _, et, c2) =>
      match withTimer MetricsTimer.new c2 env.searchCall with
      | (.error e, st, c3) =>
        (⟨(c3 - c0) * 1000, et.duration_ms.getD 0, st.duration_ms.getD 0,
          0, false, some e⟩,
         ⟨false, [], some e⟩)
      | (.ok results, st, c3) =>
        (⟨(c3 - c0) * 1000, et.duration_ms.getD 0, st.duration_ms.getD 0,
          results.length, true, none⟩,
         ⟨true, results, none⟩)

/-- C7: whichever stage raises (client setup/validation, embedding
generation, or the similarity-search step — filter building is pure and
cannot raise), `execute_search` still produces a completion record with
`success = false`, the error message, and best-effort durations (zero for
stages that never started), and returns a structured failure result; being
a total function, it never propagates the exception. -/
theorem C7_search_pipeline_finalizes_on_failure (env : SearchEnv) (c0 : Int)
    (e : String) :
    (∀ c1, env.init c0 = (.error e, c1) →
      execute_search env c0
        = (⟨(c1 - c0) * 1000, 0, 0, 0, false, some e⟩, ⟨false, [], some e⟩))
    ∧ (∀ u c1 c2, env.init c0 = (.ok u, c1) → env.embed c1 = (.error e, c2) →
      execute_search env c0
        = (⟨(c2 - c0) * 1000, (c2 - c1) * 1000, 0, 0, false, some e⟩,
           ⟨false, [], some e⟩))
    ∧ (∀ u q c1 c2 c3, env.init c0 = (.ok u, c1) → env.embed c1 = (.ok q, c2) →
      env.searchCall c2 = (.error e, c3) →
      execute_search env c0
        = (⟨(c3 - c0) * 1000, (c2 - c1) * 1000, (c3 - c2) * 1000, 0, false,
            some e⟩,
           ⟨false, [], some e⟩)) := by
  refine ⟨?_, ?_, ?_⟩
  · intro c1 h1
    simp [execute_search, h1]
  · intro u c1 c2 h1 h2
    simp [execute_search, h1, withTimer, h2]
  · intro u q c1 c2 c3 h1 h2 h3
    simp [execute_search, h1, withTimer, h2, h3]

/-- Witness for C7: the embedding stage raises "quota" after consuming 3
clock units, with client setup having consumed 2. -/
theorem C7_search_pipeline_finalizes_on_failure_witness :
    execute_search
      ⟨fun c => (Except.ok (), c + 2),
       fun c => (Except.error "quota", c + 3),
       fun c => (Except.ok [], c)⟩ 0
      = (⟨5000, 3000, 0, 0, false, some "quota"⟩, ⟨false, [], some "quota"⟩) := by
  have h := (C7_search_pipeline_finalizes_on_failure
    ⟨fun c => (Except.ok (), c + 2),
     fun c => (Except.error "quota", c + 3),
     fun c => (Except.ok [], c)⟩ 0 "quota").2.1 () 2 5 rfl (by norm_num)
  rw [h]
  norm_num

/-! ## UI search validation (src/mmfood/ui/search.py, lines 165-204; C2) -/

/-- Outcome of `_execute_search`: a validation `st.error`/`st.stop`, or a
run of the service (carrying the completion record and result). -/
inductive UIOutcome where
| stopped (msg : String)
| ran (completion : CompletionRecord) (result : SearchReturn)
deriving DecidableEq

/-- Python truthiness of the optional uploaded bytes: `None` and `b""` are
falsy. -/
def bytesFalsy : Option (List Nat) → Bool
| none => true
| some b => b.isEmpty

/-- `_execute_search` (lines 165-204): validate the user id, the
configured store URL, then the combined empty-query check
`(query_mode == "text" and not query_text) and (query_mode == "image" and
not query_image_bytes)` — embedded exactly as written, with `and` joining
the two mode conjuncts — before invoking the service. -/
def _execute_search (env : SearchEnv) (c0 : Int) (user_id_f : String)
    (qdrant_url : String) (query_text : String)
    (query_image_bytes : Option (List Nat)) : UIOutcome :=
  if user_id_f.isEmpty then
    .stopped "Please provide a User ID for user-specific search."
  else if qdrant_url.isEmpty then
    .stopped "Qdrant URL not configured. Please check your .env file."
  else
    let query_mode := if query_text.isEmpty = false then "text" else "image"
    if (query_mode = "text" ∧ query_text.isEmpty = true)
        ∧ (query_mode = "image" ∧ bytesFalsy query_image_bytes = true) then
      .stopped "Provide a search text or upload a query image."
    else
      let r := execute_search env c0
      .ran r.1 r.2

/-- The combined empty-query check joins two mutually exclusive mode
conjuncts with `and`, so it can never be satisfied: no input stops with its
error message. -/
theorem empty_query_check_never_fires (env : SearchEnv) (c0 : Int)
    (uid qurl qt : String) (qib : Option (List Nat)) :
    _execute_search env c0 uid qurl qt qib
      ≠ .stopped "Provide a search text or upload a query image." := by
  unfold _execute_search
  by_cases h1 : uid.isEmpty
  · rw [if_pos h1]
    intro hc
    simp at hc
  · rw [if_neg h1]
    by_cases h2 : qurl.isEmpty
    · rw [if_pos h2]
      intro hc
      simp at hc
    · rw [if_neg h2]
      rw [if_neg ?_]
      · intro hc
        simp at hc
      · rintro ⟨⟨ht, _⟩, ⟨hi, _⟩⟩
        rw [ht] at hi
        simp at hi

/-- C2 (code bug): the empty-query validation never fires, so a search with
a user id but neither query text nor an image passes validation and reaches
the embedding capability.  First conjunct: with an embedding stage whose
invocation is the marker error "embedding invoked", the empty query returns
a `ran` outcome carrying that marker — the embedding capability was
invoked, and no validation stop occurred.  Second conjunct: the missing
owner-id check does work and stops before anything runs. -/
theorem C2_empty_query_reaches_embedding :
    _execute_search
      ⟨fun c => (Except.ok (), c),
       fun c => (Except.error "embedding invoked", c),
       fun c => (Except.ok [], c)⟩
      0 "u1" "http://q" "" none
      = .ran ⟨0, 0, 0, 0, false, some "embedding invoked"⟩
          ⟨false, [], some "embedding invoked"⟩
    ∧ (∀ env c0 qurl qt qib, _execute_search env c0 "" qurl qt qib
        = .stopped "Please provide a User ID for user-specific search.") := by
  constructor
  · decide
  · intro env c0 qurl qt qib
    rfl

/-! ## Bulk ingest (src/mmfood/ui/bulk_ingest.py, lines 64-182; C6)

Each upload is summarized by its per-item outcome: the item's step 1/2
raised, the upload call returned `ok=False`, or a point was prepared. -/

inductive ItemOutcome where
| raised (e : String)
| uploadFailed
| prepared (p : PointStruct)
deriving DecidableEq

/-- One iteration of the `for uploaded in uploads` loop over the state
`(succeeded, failed, points)`: an exception or a failed upload increments
`failed` and skips the item (`continue`); a prepared point is appended and
increments `succeeded`. -/
def bulkStep (acc : Nat × Nat × List PointStruct) (it : ItemOutcome) :
    Nat × Nat × List PointStruct :=
  match it with
  | .raised _ => (acc.1, acc.2.1 + 1, acc.2.2)
  | .uploadFailed => (acc.1, acc.2.1 + 1, acc.2.2)
  | .prepared p => (acc.1 + 1, acc.2.1, acc.2.2 ++ [p])

/-- The `BulkRun` summary row passed to `log_bulk_ingest_run` (timing
averages omitted: no claim mentions them). -/
structure BulkRunRecord where
  images_total : Nat
  succeeded : Nat
  failed : Nat
  error_message : Option String
deriving DecidableEq

/-- `_run_bulk_ingest`: process every item sequentially, then issue one
`upsert_vectors_batch` with the accumulated points
(`chunk_size = 0 if len(points) <= 512 else 512`), then persist one
`BulkRun` summary.  Returns the summary, the points passed to the batch
upsert, and the batch-upsert outcome with its request trace. -/
def _run_bulk_ingest (items : List ItemOutcome)
    (client : List PointStruct → Except String Unit) :
    BulkRunRecord × List PointStruct × (Bool × List (List PointStruct)) :=
  let st := items.foldl bulkStep (0, 0, [])
  let points := st.2.2
  let up := upsert_vectors_batch client points
    (if points.length ≤ 512 then 0 else 512)
  (⟨items.length, st.1, st.2.1,
    if up.1 then none else some "qdrant_upsert_failed"⟩,
   points, up)

/-- Number of items whose per-item step failed. -/
def failCount : List ItemOutcome → Nat
| [] => 0
| .raised _ :: tl => failCount tl + 1
| .uploadFailed :: tl => failCount tl + 1
| .prepared _ :: tl => failCount tl

/-- Number of successfully prepared items. -/
def succCount : List ItemOutcome → Nat
| [] => 0
| .raised _ :: tl => succCount tl
| .uploadFailed :: tl => succCount tl
| .prepared _ :: tl => succCount tl + 1

/-- The points of the successful items, in input order. -/
def okPoints : List ItemOutcome → List PointStruct
| [] => []
| .raised _ :: tl => okPoints tl
| .uploadFailed :: tl => okPoints tl
| .prepared p :: tl => p :: okPoints tl

theorem succCount_add_failCount : ∀ items : List ItemOutcome,
    succCount items + failCount items = items.length
| [] => rfl
| .raised _ :: tl => by
  simp [succCount, failCount]
  have := succCount_add_failCount tl
  omega
| .uploadFailed :: tl => by
  simp [succCount, failCount]
  have := succCount_add_failCount tl
  omega
| .prepared _ :: tl => by
  simp [succCount, failCount]
  have := succCount_add_failCount tl
  omega

theorem okPoints_length : ∀ items : List ItemOutcome,
    (okPoints items).length = succCount items
| [] => rfl
| .raised _ :: tl => okPoints_length tl
| .uploadFailed :: tl => okPoints_length tl
| .prepared _ :: tl => by
  simp [okPoints, succCount, okPoints_length tl]

/-- The loop, from any starting state, adds the success and failure counts
and appends the prepared points in order. -/
theorem bulkLoop_spec : ∀ (items : List ItemOutcome)
    (s f : Nat) (ps : List PointStruct),
    items.foldl bulkStep (s, f, ps)
      = (s + succCount items, f + failCount items, ps ++ okPoints items)
| [], s, f, ps => by simp [succCount, failCount, okPoints]
| .raised e :: tl, s, f, ps => by
  simp only [List.foldl_cons, bulkStep]
  rw [bulkLoop_spec tl]
  simp [succCount, failCount, okPoints]
  omega
| .uploadFailed :: tl, s, f, ps => by
  simp only [List.foldl_cons, bulkStep]
  rw [bulkLoop_spec tl]
  simp [succCount, failCount, okPoints]
  omega
| .prepared p :: tl, s, f, ps => by
  simp only [List.foldl_cons, bulkStep]
  rw [bulkLoop_spec tl]
  simp [succCount, failCount, okPoints]
  omega

/-- C6: a bulk run over N items with f per-item failures processes all N
items (succeeded + failed = N, nothing aborts), records
`succeeded = N - f` and `failed = f` in the `BulkRun` summary, and passes
exactly the prepared points of the successful items — in input order — to
the single final batch upsert, which (with an accepting store) issues them
all. -/
theorem C6_bulk_ingest_counts_and_batch (items : List ItemOutcome)
    (client : List PointStruct → Except String Unit)
    (hok : ∀ b, client b = Except.ok ()) :
    (_run_bulk_ingest items client).1.images_total = items.length
    ∧ (_run_bulk_ingest items client).1.succeeded
        = items.length - failCount items
    ∧ (_run_bulk_ingest items client).1.failed = failCount items
    ∧ (_run_bulk_ingest items client).1.succeeded
        + (_run_bulk_ingest items client).1.failed = items.length
    ∧ (_run_bulk_ingest items client).2.1 = okPoints items
    ∧ ((_run_bulk_ingest items client).2.1).length
        = items.length - failCount items
    ∧ ((_run_bulk_ingest items client).2.2.2).flatten = okPoints items := by
  have hsf := succCount_add_failCount items
  have hol := okPoints_length items
  have hloop := bulkLoop_spec items 0 0 []
  have hpoints : (items.foldl bulkStep (0, 0, [])).2.2 = okPoints items := by
    rw [hloop]
    simp
  have hs : (items.foldl bulkStep (0, 0, [])).1 = succCount items := by
    rw [hloop]
    simp
  have hf : (items.foldl bulkStep (0, 0, [])).2.1 = failCount items := by
    rw [hloop]
    simp
  have hflat : ((_run_bulk_ingest items client).2.2.2).flatten = okPoints items := by
    unfold _run_bulk_ingest
    simp only [hpoints]
    by_cases hsz : (okPoints items).length ≤ 512
    · rw [if_pos hsz]
      have hc := upsert_batch_request_trace client (okPoints items) 0 hok
      by_cases hemp : okPoints items = []
      · rw [hc.1 hemp]
        simp [hemp]
      · rw [hc.2.1 (by norm_num) hemp]
        simp
    · rw [if_neg hsz]
      have hc := (upsert_batch_request_trace client (okPoints items) 512 hok).2.2
        (by norm_num)
      rw [hc.1]
      exact hc.2.2.2
  refine ⟨rfl, ?_, ?_, ?_, ?_, ?_, hflat⟩
  · show (items.foldl bulkStep (0, 0, [])).1 = _
    omega
  · show (items.foldl bulkStep (0, 0, [])).2.1 = _
    omega
  · show (items.foldl bulkStep (0, 0, [])).1
      + (items.foldl bulkStep (0, 0, [])).2.1 = _
    omega
  · show (items.foldl bulkStep (0, 0, [])).2.2 = _
    exact hpoints
  · show ((items.foldl bulkStep (0, 0, [])).2.2).length = _
    rw [hpoints]
    omega

/-- Witness for C6: five items of which the third raises during description
generation — `succeeded = 4`, `failed = 1`, and exactly the four prepared
points reach the batch upsert. -/
theorem C6_bulk_ingest_counts_and_batch_witness :
    (_run_bulk_ingest
      [.prepared ⟨"p1", [1], .nil⟩, .prepared ⟨"p2", [2], .nil⟩,
       .raised "description generation failed", .prepared ⟨"p4", [4], .nil⟩,
       .prepared ⟨"p5", [5], .nil⟩]
      (fun _ => Except.ok ())).1.succeeded = 4
    ∧ (_run_bulk_ingest
      [.prepared ⟨"p1", [1], .nil⟩, .prepared ⟨"p2", [2], .nil⟩,
       .raised "description generation failed", .prepared ⟨"p4", [4], .nil⟩,
       .prepared ⟨"p5", [5], .nil⟩]
      (fun _ => Except.ok ())).1.failed = 1
    ∧ (_run_bulk_ingest
      [.prepared ⟨"p1", [1], .nil⟩, .prepared ⟨"p2", [2], .nil⟩,
       .raised "description generation failed", .prepared ⟨"p4", [4], .nil⟩,
       .prepared ⟨"p5", [5], .nil⟩]
      (fun _ => Except.ok ())).2.1
      = [⟨"p1", [1], .nil⟩, ⟨"p2", [2], .nil⟩, ⟨"p4", [4], .nil⟩,
         ⟨"p5", [5], .nil⟩] := by
  have h := C6_bulk_ingest_counts_and_batch
    [.prepared ⟨"p1", [1], .nil⟩, .prepared ⟨"p2", [2], .nil⟩,
     .raised "description generation failed", .prepared ⟨"p4", [4], .nil⟩,
     .prepared ⟨"p5", [5], .nil⟩]
    (fun _ => Except.ok ()) (fun _ => rfl)
  refine ⟨?_, ?_, ?_⟩
  · rw [h.2.1]
    decide
  · rw [h.2.2.1]
    decide
  · rw [h.2.2.2.2.1]
    decide

/-! ## Single-item ingest (src/mmfood/ui/ingest.py, lines 300-453; C9) -/

/-- Does the first list start with the second? -/
def listStartsWith : List Char → List Char → Bool
| _, [] => true
| [], _ :: _ => false
| c :: tl, d :: dl => c == d && listStartsWith tl dl

/-- Does the list contain the given sublist of characters? -/
def listContainsSub (sub : List Char) : List Char → Bool
| [] => sub.isEmpty
| c :: tl => listStartsWith (c :: tl) sub || listContainsSub sub tl

/-- Python `sub in s` on strings. -/
def strContains (s sub : String) : Bool := listContainsSub sub.data s.data

/-- ASCII lowering of one character (Python `str.lower` on the ASCII
messages involved here). -/
def lowerChar (c : Char) : Char :=
  if 65 ≤ c.toNat ∧ c.toNat ≤ 90 then Char.ofNat (c.toNat + 32) else c

/-- Python `s.lower()` (ASCII). -/
def strLower (s : String) : String := ⟨s.data.map lowerChar⟩

/-- Stage name for a stage-1 exception:
`"describe_image" if "converse" in str(e).lower() else "generate_embedding"`. -/
def errStepStage1 (e : String) : String :=
  if strContains (strLower e) "converse" then "describe_image"
  else "generate_embedding"

/-- Stage name inferred for a stage-2 exception from its message
(lines 391-401); `s3_img_ms` is still `None` when the call raised before
returning details. -/
def errStepStage2 (e : String) (s3_img_ms : Option Int) : String :=
  if strContains (strLower e) "put_object" || strContains (strLower e) "s3" then
    (if s3_img_ms.isNone then "upload_s3_image" else "upload_s3_embedding")
  else if strContains (strLower e) "qdrant" || strContains (strLower e) "upsert" then
    "qdrant_upsert"
  else "validate_index"

/-- The details dictionary returned by `upload_to_s3_and_index`. -/
structure UploadDetails where
  image_id : String
  s3_image_upload_ms : Option Int
  s3_embedding_upload_ms : Option Int
  vector_duration_ms : Option Int
deriving DecidableEq

/-- External stages of one single-item ingest:
`generate_description_and_embedding`, then `upload_to_s3_and_index`
(`Except.error` is a raised exception; the `ok` Boolean of `uploadIndex`
is the upsert success flag it returns). -/
structure IngestEnv where
  genDesc : Except String (String × List Int)
  uploadIndex : Except String (Bool × UploadDetails)

/-- The fields of the single row passed to `log_ingest_record` that the
claims speak about (`"success": 1 if (error_message is None) else 0`). -/
structure IngestRecord where
  success : Bool
  error_step : Option String
  error_message : Option String
deriving DecidableEq

/-- `_handle_full_ingest`: run stage 1, then stage 2, catching every
exception; the `finally` block always persists exactly one ingest record.
Returns that record together with whether `upload_to_s3_and_index` — the
only call that can write a vector point — was invoked. -/
def _handle_full_ingest (env : IngestEnv) : IngestRecord × Bool :=
  match env.genDesc with
  | .error e => (⟨false, some (errStepStage1 e), some e⟩, false)
  | .ok _ =>
    match env.uploadIndex with
    | .error e => (⟨false, some (errStepStage2 e none), some e⟩, true)
    | .ok (success, _) =>
      if success then (⟨true, none, none⟩, true)
      else (⟨false, some "qdrant_upsert",
             some "Vector upsert reported failure"⟩, true)

/-- C9 counterexample: a reported vector-upsert failure is recorded with
`error_step = "qdrant_upsert"`, which is outside the five stage names the
claim fixes ({describe, generate_embedding, upload_image, upload_metadata,
vector_upsert}). -/
theorem C9_counterexample_stage_name :
    (_handle_full_ingest
        ⟨.ok ("d", [1]), .ok (false, ⟨"img", some 1, some 1, some 1⟩)⟩).1
      = ⟨false, some "qdrant_upsert", some "Vector upsert reported failure"⟩
    ∧ "qdrant_upsert" ∉ (["describe", "generate_embedding", "upload_image",
        "upload_metadata", "vector_upsert"] : List String) := by
  exact ⟨rfl, by decide⟩

/-- C9 amended: every single-item ingest persists exactly one record (the
embedding returns one record on every path); the record's success flag is
set exactly when no error message was recorded; on failure the record names
the failing stage from the code's fixed set {describe_image,
generate_embedding, upload_s3_image, upload_s3_embedding, qdrant_upsert,
validate_index}; and when stage 1 (description/embedding) raises, the
upload-and-index call — the only vector write — never runs. -/
theorem C9_ingest_record_and_stages (env : IngestEnv) :
    ((_handle_full_ingest env).1.success = true
      ↔ (_handle_full_ingest env).1.error_message = none)
    ∧ ((_handle_full_ingest env).1.success = false →
        ((_handle_full_ingest env).1.error_step).getD ""
          ∈ (["describe_image", "generate_embedding", "upload_s3_image",
              "upload_s3_embedding", "qdrant_upsert", "validate_index"]
             : List String))
    ∧ (∀ e, env.genDesc = .error e →
        (_handle_full_ingest env).2 = false
        ∧ (_handle_full_ingest env).1.success = false
        ∧ ((_handle_full_ingest env).1.error_step = some "describe_image"
           ∨ (_handle_full_ingest env).1.error_step
               = some "generate_embedding")) := by
  cases hg : env.genDesc with
  | error e0 =>
    refine ⟨?_, ?_, ?_⟩
    · simp [_handle_full_ingest, hg]
    · intro _
      simp only [_handle_full_ingest, hg, Option.getD_some]
      unfold errStepStage1
      by_cases h : strContains (strLower e0) "converse" = true
      · rw [if_pos h]
        decide
      · rw [if_neg h]
        decide
    · intro e he
      simp only [_handle_full_ingest, hg]
      refine ⟨trivial, trivial, ?_⟩
      unfold errStepStage1
      by_cases h : strContains (strLower e0) "converse" = true
      · rw [if_pos h]
        exact Or.inl rfl
      · rw [if_neg h]
        exact Or.inr rfl
  | ok v =>
    cases hu : env.uploadIndex with
    | error e0 =>
      refine ⟨?_, ?_, ?_⟩
      · simp [_handle_full_ingest, hg, hu]
      · intro _
        simp only [_handle_full_ingest, hg, hu, Option.getD_some]
        unfold errStepStage2
        by_cases h1 : (strContains (strLower e0) "put_object"
            || strContains (strLower e0) "s3") = true
        · rw [if_pos h1]
          decide
        · rw [if_neg h1]
          by_cases h2 : (strContains (strLower e0) "qdrant"
              || strContains (strLower e0) "upsert") = true
          · rw [if_pos h2]
            decide
          · rw [if_neg h2]
            decide
      · intro e he
        simp at he
    | ok p =>
      obtain ⟨success, details⟩ := p
      cases success with
      | true =>
        refine ⟨?_, ?_, ?_⟩
        · simp [_handle_full_ingest, hg, hu]
        · intro h
          simp [_handle_full_ingest, hg, hu] at h
        · intro e he
          simp at he
      | false =>
        refine ⟨?_, ?_, ?_⟩
        · simp [_handle_full_ingest, hg, hu]
        · intro _
          simp only [_handle_full_ingest, hg, hu]
          decide
        · intro e he
          simp at he

/-- Witness for the amended C9: a description stage raising "Converse timed
out" leaves the vector write untouched, with a failure record naming the
describe/embed stage. -/
theorem C9_ingest_record_and_stages_witness :
    (_handle_full_ingest
        ⟨.error "Converse timed out", .ok (true, ⟨"img", none, none, none⟩)⟩).2
      = false
    ∧ (_handle_full_ingest
        ⟨.error "Converse timed out", .ok (true, ⟨"img", none, none, none⟩)⟩).1.success
      = false
    ∧ ((_handle_full_ingest
        ⟨.error "Converse timed out", .ok (true, ⟨"img", none, none, none⟩)⟩).1.error_step
        = some "describe_image"
      ∨ (_handle_full_ingest
        ⟨.error "Converse timed out", .ok (true, ⟨"img", none, none, none⟩)⟩).1.error_step
        = some "generate_embedding") :=
  (C9_ingest_record_and_stages
    ⟨.error "Converse timed out", .ok (true, ⟨"img", none, none, none⟩)⟩).2.2
    "Converse timed out" rfl

end Mm
